import Mathlib

/-!
Verification of the CoverageIQ analysis backend.

This file gives a shallow embedding, in Lean 4, of the correctness-critical
parts of the repository:

* `backend/app/services/analysis.py` — the response validator/normalizer
  (`AnalysisPipeline._parse_analysis_result`) and the provider failover
  protocol in `AnalysisPipeline.analyze_script`;
* `backend/app/services/job_manager.py` — the background job unit
  (`JobManager._run_analysis_job`) with its stale-job and terminal-state
  checks and the `_do_mark_failed` / `_do_mark_completed` /
  `_do_update_progress` transitions;
* `backend/app/services/llm_client.py` — the chunk-splitting loop of
  `analyze_with_chunking` (identical in `MoonshotClient` and
  `ClaudeClient`) and the structured-response extraction of
  `analyze_script` in both clients.

Python dictionaries of untrusted provider JSON are modelled by `JValue`;
Python exceptions raised while normalizing are modelled by `Option`
(`none` means the code raised, i.e. `_parse_analysis_result` escalates to
`AnalysisError`).  Python strings are modelled by Lean `String`, with all
slicing done through the underlying character list.
-/

set_option autoImplicit false

namespace CoverageIQ

/-! ### JSON-like Python values -/

/-- A loosely structured Python value as produced by `json.loads`:
`None`, booleans, integers, strings, lists and dicts.  (Numbers are
modelled as integers; none of the verified code paths depend on the
fractional part of a float.) -/
inductive JValue where
  | jnull : JValue
  | jbool : Bool → JValue
  | jnum : Int → JValue
  | jstr : String → JValue
  | jlist : List JValue → JValue
  | jobj : List (String × JValue) → JValue

open JValue

/-- Dict lookup: `d[k]` / `d.get(k)` on a Python dict modelled as an
association list (keys are unique in a dict, so first match suffices). -/
def lookupJ (fields : List (String × JValue)) (k : String) : Option JValue :=
  (fields.find? (fun p => p.1 == k)).map (fun p => p.2)

/-- Digits-only string to number (helper for `parsePyInt`). -/
def digitsToNat : List Char → Option Nat
  | [] => none
  | cs =>
    if cs.all Char.isDigit then
      some (cs.foldl (fun a c => a * 10 + (c.toNat - 48)) 0)
    else none

/-- Python `int(s)` on a string: optional surrounding spaces, an optional
sign, then a non-empty run of digits; anything else raises `ValueError`. -/
def parsePyInt (s : String) : Option Int :=
  let cs := ((s.data.dropWhile (fun c => c == ' ')).reverse.dropWhile
      (fun c => c == ' ')).reverse
  match cs with
  | '-' :: r => (digitsToNat r).map (fun n => -(n : Int))
  | '+' :: r => (digitsToNat r).map (fun n => (n : Int))
  | r => (digitsToNat r).map (fun n => (n : Int))

/-- Python `int(x)` applied to a loosely typed value: succeeds on numbers,
booleans and numeric strings, raises (`none`) on `None`, lists and dicts. -/
def toIntOpt : JValue → Option Int
  | jnum n => some n
  | jbool b => some (if b then 1 else 0)
  | jstr s => parsePyInt s
  | _ => none

/-- `listHasPrefixCh p s` : `p` is a prefix of `s` (character lists). -/
def listHasPrefixCh : List Char → List Char → Bool
  | [], _ => true
  | _ :: _, [] => false
  | p :: ps, c :: cs => p == c && listHasPrefixCh ps cs

/-- `listContainsSub p s` : `p` occurs as a contiguous substring of `s`
(Python's `p in s` on strings). -/
def listContainsSub (p : List Char) : List Char → Bool
  | [] => p.isEmpty
  | c :: cs => listHasPrefixCh p (c :: cs) || listContainsSub p cs

/-- Python's `pat in s` substring test on strings. -/
def containsSub (s pat : String) : Bool :=
  listContainsSub pat.data s.data

/-- Python `s.upper()` over the character list (character-wise
`Char.toUpper`, the labels involved are ASCII). -/
def upperStr (s : String) : String :=
  String.mk (s.data.map Char.toUpper)

/-- Python `s.upper()` on a value: only strings have `.upper`, anything
else raises `AttributeError` (`none`). -/
def upperOpt : JValue → Option String
  | jstr s => some (upperStr s)
  | _ => none

/-- Python slicing `v[:n]`: strings and lists are truncated to their first
`n` elements; any other type raises `TypeError` (`none`). -/
def sliceOpt (v : JValue) (n : Nat) : Option JValue :=
  match v with
  | jstr s => some (jstr (String.mk (s.data.take n)))
  | jlist xs => some (jlist (xs.take n))
  | _ => none

/-- Length of a string or list value (0 for scalars); used to state the
truncation bounds on evidence quotes. -/
def vLen : JValue → Nat
  | jstr s => s.data.length
  | jlist xs => xs.length
  | _ => 0

/-! ### Response validator / normalizer (`_parse_analysis_result`) -/

/-- The alias table `score_mapping` of `_parse_analysis_result`, verbatim. -/
def scoreMapping : List (String × List String) :=
  [("concept", ["concept", "premise", "idea", "hook"]),
   ("character", ["character", "characters", "protagonist", "ensemble"]),
   ("structure", ["structure", "pacing", "plot", "narrative"]),
   ("dialogue", ["dialogue", "writing", "voice", "execution"]),
   ("market", ["market", "viability", "commercial", "audience", "timeliness"])]

/-- Python `key in subscores` for a loosely typed `subscores` value:
membership on dicts, element equality on lists, substring test on
strings; on any other type `in` raises `TypeError` (`none`). -/
def keyInValue (k : String) : JValue → Option Bool
  | jobj d => some (lookupJ d k).isSome
  | jlist xs => some (xs.any (fun x => match x with
      | jstr s => s == k
      | _ => false))
  | jstr s => some (containsSub s k)
  | _ => none

/-- Python `subscores[key]` after a successful membership test: only a
dict subscript yields a value, list/string subscripts with a string key
raise `TypeError` (`none`). -/
def getItemJ (v : JValue) (k : String) : Option JValue :=
  match v with
  | jobj d => lookupJ d k
  | _ => none

/-- The `for key in possible_keys: if key in subscores: ... break` scan.
Outer `none` models a raised exception; `some none` means no alias key
matched; `some (some v)` is the first matching alias's value. -/
def findAlias (sub : JValue) : List String → Option (Option JValue)
  | [] => some none
  | k :: ks =>
    match keyInValue k sub with
    | none => none
    | some true => (getItemJ sub k).map some
    | some false => findAlias sub ks

/-- `min(10, max(0, n))`. -/
def clampScore (n : Int) : Int := min 10 (max 0 n)

/-- Validation of one canonical subscore category: take the first alias
present in the raw `subscores`; a dict value contributes
`int(.get("score", 0))` clamped to `[0,10]` plus
`.get("rationale", .get("note", ""))`; a bare value is coerced with
`int(...)` and clamped; no matching alias defaults to `(0, "")`. -/
def validateCategory (sub : JValue) (aliases : List String) :
    Option (Int × JValue) :=
  match findAlias sub aliases with
  | none => none
  | some none => some (0, jstr "")
  | some (some (jobj d)) =>
    (toIntOpt ((lookupJ d "score").getD (jnum 0))).map
      (fun n => (clampScore n,
        (lookupJ d "rationale").getD ((lookupJ d "note").getD (jstr ""))))
  | some (some v) =>
    (toIntOpt v).map (fun n => (clampScore n, jstr ""))

/-- Validation of all categories of the alias table, in order.  Each
entry of the result is `(category, clamped score, rationale)`. -/
def validateSubscores (sub : JValue) :
    List (String × List String) → Option (List (String × Int × JValue))
  | [] => some []
  | (k, aliases) :: rest =>
    match validateCategory sub aliases with
    | none => none
    | some (sc, rat) =>
      match validateSubscores sub rest with
      | none => none
      | some tail => some ((k, sc, rat) :: tail)

/-- Sum of the validated scores (`sum(s["score"] for s in ...)`). -/
def scoresSum (l : List (String × Int × JValue)) : Int :=
  (l.map (fun t => t.2.1)).sum

/-- The recommendation adjustment of `_parse_analysis_result`
(lines 281–288): uppercase the current label, then replace it by the
canonical threshold name only when it does not already contain a keyword
the code accepts for the recomputed total.  `none` models the
`AttributeError` raised by `.upper()` on a non-string label. -/
def normalizeRecommendation (total : Int) (recVal : JValue) : Option JValue :=
  match upperOpt recVal with
  | none => none
  | some u =>
    if 38 ≤ total ∧ containsSub u "RECOMMEND" = false then
      some (jstr "Recommend")
    else if 25 ≤ total ∧ containsSub u "CONSIDER" = false ∧
        containsSub u "RECOMMEND" = false then
      some (jstr "Consider")
    else if total < 25 ∧ containsSub u "PASS" = false then
      some (jstr "Pass")
    else
      some recVal

/-- One normalized evidence quote: `quote` sliced to 500, `page` coerced
with `int(...)`, `context` sliced to 200. -/
structure EvidenceQuote where
  quote : JValue
  page : Int
  context : JValue

/-- Whether a value is a Python dict (`isinstance(quote, dict)`). -/
def isObjJ : JValue → Bool
  | jobj _ => true
  | _ => false

/-- Validation of one raw evidence-quote entry.  Non-dict entries are
skipped (`some none`); a dict entry is kept with its fields defaulted and
truncated, but an unsliceable `quote`/`context` or an `int`-uncoercible
`page` raises (`none`). -/
def validateQuote (q : JValue) : Option (Option EvidenceQuote) :=
  match q with
  | jobj d =>
    match sliceOpt ((lookupJ d "quote").getD (jstr "")) 500 with
    | none => none
    | some qv =>
      match toIntOpt ((lookupJ d "page").getD (jnum 0)) with
      | none => none
      | some pg =>
        match sliceOpt ((lookupJ d "context").getD (jstr "")) 200 with
        | none => none
        | some cv => some (some ⟨qv, pg, cv⟩)
  | _ => some none

/-- The quote-validation loop over the raw list. -/
def validateQuotes : List JValue → Option (List EvidenceQuote)
  | [] => some []
  | q :: qs =>
    match validateQuote q with
    | none => none
    | some none => validateQuotes qs
    | some (some e) =>
      match validateQuotes qs with
      | none => none
      | some tail => some (e :: tail)

/-- The raw evidence-quote list of a payload: the value of
`"evidence_quotes"` when it is a list, `[]` otherwise (the code replaces
a missing or non-list value by `[]`). -/
def quotesOf (raw : List (String × JValue)) : List JValue :=
  match lookupJ raw "evidence_quotes" with
  | some (jlist xs) => xs
  | _ => []

/-- The normalized result of `_parse_analysis_result`: every required
field populated, subscores validated, total recomputed, recommendation
adjusted, evidence quotes filtered and truncated. -/
structure ParsedResult where
  logline : JValue
  synopsis : JValue
  overall_comments : JValue
  strengths : JValue
  weaknesses : JValue
  subscores : List (String × Int × JValue)
  total_score : Int
  recommendation : JValue
  evidence_quotes : List EvidenceQuote

/-- The required-field defaulting loop: a missing field is replaced by
its type's default (`""`, `[]`, `{}`, `0`), a present field is kept. -/
def defaultedField (raw : List (String × JValue)) (k : String) (d : JValue) :
    JValue :=
  (lookupJ raw k).getD d

/-- `raw_result.get("subscores", {})` after the defaulting loop. -/
def subscoresOf (raw : List (String × JValue)) : JValue :=
  defaultedField raw "subscores" (jobj [])

/-- `raw_result.get("recommendation", "")` after the defaulting loop. -/
def recommendationOf (raw : List (String × JValue)) : JValue :=
  defaultedField raw "recommendation" (jstr "")

/-- `AnalysisPipeline._parse_analysis_result` (analysis.py 212–308).
Missing required fields are defaulted (strings to `""`, lists to `[]`,
`subscores` to `{}`, `total_score` to `0`); the five categories are
validated through the alias table with scores clamped to `[0,10]`;
`total_score` is recomputed as their sum; the recommendation label is
adjusted against the recomputed total; evidence quotes are filtered and
truncated.  `none` models the `except`-wrapped `AnalysisError`. -/
def parseAnalysisResult (raw : List (String × JValue)) : Option ParsedResult :=
  match validateSubscores (subscoresOf raw) scoreMapping with
  | none => none
  | some subs =>
    match normalizeRecommendation (scoresSum subs) (recommendationOf raw) with
    | none => none
    | some recV =>
      match validateQuotes (quotesOf raw) with
      | none => none
      | some qs =>
        some { logline := defaultedField raw "logline" (jstr "")
               synopsis := defaultedField raw "synopsis" (jstr "")
               overall_comments := defaultedField raw "overall_comments" (jstr "")
               strengths := defaultedField raw "strengths" (jlist [])
               weaknesses := defaultedField raw "weaknesses" (jlist [])
               subscores := subs
               total_score := scoresSum subs
               recommendation := recV
               evidence_quotes := qs }

/-! ### Provider failover (`AnalysisPipeline.analyze_script`, analysis.py 140–186)

The two provider calls are blocking remote effects; their outcomes are
passed in as values of `CallResult`.  The same chunking decision is used
for the primary attempt and for the fallback retry, so the fallback call
is the equivalent of the primary one. -/

/-- Outcome of one provider call (chunked or not): a parsed payload, an
`LLMContentModerationError`, or any other `LLMError`. -/
inductive CallResult (α : Type) where
  | ok : α → CallResult α
  | moderation : String → CallResult α
  | err : String → CallResult α

/-- The `try/except` provider-selection chain of `analyze_script`:
primary success is tagged `"moonshot-v1-128k"`; a moderation error from
the primary triggers the fallback, tagged `"claude-sonnet-4-5"` on
success; any other primary error aborts with
`"Moonshot analysis failed: ..."`; a fallback failure (its moderation
errors included, `LLMContentModerationError ⊆ LLMError`) aborts with
`"Both Moonshot and Claude failed. Claude error: ..."`. -/
def analyzeScriptFailover {α : Type} (primary fallback : CallResult α) :
    Except String (α × String) :=
  match primary with
  | .ok v => .ok (v, "moonshot-v1-128k")
  | .err m => .error ("Moonshot analysis failed: " ++ m)
  | .moderation _ =>
    match fallback with
    | .ok v => .ok (v, "claude-sonnet-4-5")
    | .moderation m2 =>
      .error ("Both Moonshot and Claude failed. Claude error: " ++ m2)
    | .err m2 =>
      .error ("Both Moonshot and Claude failed. Claude error: " ++ m2)

/-! ### Job manager (`JobManager`, job_manager.py)

Timestamps are integer seconds.  The fields of `AnalysisJob` that the
verified transitions touch are modelled; identifier and context columns
(`id`, `script_id`, `report_id`, `genre`, `comps`, `analysis_depth`,
`script_text_hash`) play no role in the claims and are omitted. -/

/-- `JobStatus` of models.py. -/
inductive JobStatus where
  | queued
  | processing
  | completed
  | failed
deriving DecidableEq

/-- The persisted `AnalysisJob` record (status-relevant columns). -/
structure Job where
  status : JobStatus
  progress : Int
  errorMessage : Option String
  createdAt : Int
  updatedAt : Int
  completedAt : Option Int

/-- `JobManager._do_update_progress`: clamp progress to `[0,100]`, set
the status when one is given, refresh `updated_at`. -/
def doUpdateProgress (p : Int) (st : Option JobStatus) (now : Int)
    (job : Job) : Job :=
  { job with progress := min 100 (max 0 p)
             status := st.getD job.status
             updatedAt := now }

/-- `JobManager._do_mark_completed`: terminal success, progress 100. -/
def doMarkCompleted (now : Int) (job : Job) : Job :=
  { job with status := .completed
             progress := 100
             completedAt := some now
             updatedAt := now }

/-- `JobManager._do_mark_failed`: terminal failure with a message.  Note
that, like the source, it performs no terminal-state check of its own. -/
def doMarkFailed (msg : String) (now : Int) (job : Job) : Job :=
  { job with status := .failed
             errorMessage := some msg
             completedAt := some now
             updatedAt := now }

/-- The stale threshold `timedelta(minutes=10)`, in seconds. -/
def staleThresholdSecs : Int := 600

/-- The stale-job failure message
`f"Job exceeded maximum age ({age/60:.1f} minutes)"`.  The one-decimal
rendering of the age is reproduced by flooring to tenths of a minute
(Python's `:.1f` rounds; only the digits inside the parentheses can
differ, never the cited reason). -/
def staleMsg (ageSecs : Int) : String :=
  "Job exceeded maximum age (" ++ toString (ageSecs / 60) ++ "." ++
    toString (ageSecs % 60 * 10 / 60) ++ " minutes)"

/-- Outcome of the wrapped analysis
(`_run_analysis_with_progress` + `run_coverage_analysis`): success, a
cooperative cancellation, an `AnalysisError` (the 5-minute timeout
surfaces as one), or any other exception with its class name. -/
inductive AnalysisOutcome where
  | success
  | cancelled
  | analysisError : String → AnalysisOutcome
  | otherError : String → String → AnalysisOutcome

/-- `JobManager._run_analysis_job` (job_manager.py 238–309) as a
transition on the persisted job record.  In order: a missing job exits
silently; a job older than the stale threshold is marked failed without
the analysis being run; a job already in a terminal state exits
untouched; otherwise the job moves to processing (progress 5) and the
analysis outcome decides the terminal marking.  The intermediate
progress heartbeats (10, 15–85 simulated, 90) touch only `progress` and
`updated_at` of a processing job and are absorbed into the outcome. -/
def runAnalysisJob (now : Int) (jobOpt : Option Job)
    (outcome : AnalysisOutcome) : Option Job :=
  match jobOpt with
  | none => none
  | some job =>
    if staleThresholdSecs < now - job.createdAt then
      some (doMarkFailed (staleMsg (now - job.createdAt)) now job)
    else if job.status = .completed ∨ job.status = .failed then
      some job
    else
      let job1 := doUpdateProgress 5 (some .processing) now job
      match outcome with
      | .success => some (doMarkCompleted now job1)
      | .cancelled => some (doMarkFailed "Job was cancelled" now job1)
      | .analysisError m =>
        some (doMarkFailed ("Analysis failed: " ++ m) now job1)
      | .otherError n m =>
        some (doMarkFailed ("Unexpected error: " ++ n ++ ": " ++ m) now job1)

/-! ### Chunk splitting (`analyze_with_chunking`, llm_client.py 290–302 and 595–606)

The splitting loop is character-identical in `MoonshotClient` and
`ClaudeClient`; it is embedded once.  The loop is not structurally
recursive (its progress depends on the newline search), so it is defined
with explicit fuel: `none` means the fuel ran out before the loop ended.
Chunks are recorded as `[start, end)` spans with the end clamped by the
slice `script_text[start:end]`. -/

/-- Python index adjustment for `str.rfind(sub, i, j)` bounds: negative
indices count from the end of the string and everything is clamped to
`[0, len]`. -/
def adjIdx (len : Nat) (i : Int) : Nat :=
  if i < 0 then (len + i).toNat else min i.toNat len

/-- `script_text.rfind('\n', lo, hi)` with already adjusted bounds: the
largest index `i` with `lo ≤ i < hi` holding a newline, if any. -/
def rfindNewlineGo (s : List Char) (lo hi : Nat) : Option Nat :=
  ((List.range s.length).filter
    (fun i => decide (lo ≤ i) && decide (i < hi) &&
      (s.getD i ' ' == '\n'))).getLast?

/-- One evaluation of the cut point: `end = start + chunk_size`, adjusted
to the best nearby newline when the nominal cut falls strictly inside the
text. -/
def cutPoint (s : List Char) (chunkSize start : Nat) : Nat :=
  if start + chunkSize < s.length then
    match rfindNewlineGo s (adjIdx s.length ((start + chunkSize : Int) - 100))
        (adjIdx s.length ((start + chunkSize : Int) + 100)) with
    | some p => p
    | none => start + chunkSize
  else start + chunkSize

/-- The `while start < len(script_text)` loop, fuelled.  Each iteration
appends the span of `script_text[start:end]` and restarts at
`end - overlap`.  (Under the hypotheses of the theorems below the next
start never goes negative, so `Nat` subtraction agrees with Python.) -/
def splitChunksGo (s : List Char) (chunkSize overlap : Nat) :
    Nat → Nat → Option (List (Nat × Nat))
  | 0, start => if start < s.length then none else some []
  | fuel + 1, start =>
    if start < s.length then
      match splitChunksGo s chunkSize overlap fuel
          (cutPoint s chunkSize start - overlap) with
      | none => none
      | some rest => some ((start, min (cutPoint s chunkSize start) s.length) :: rest)
    else some []

/-- The chunk plan of `analyze_with_chunking`, with enough fuel for every
terminating run whose iterations each advance the start index. -/
def chunkPlan (s : List Char) (chunkSize overlap : Nat) :
    Option (List (Nat × Nat)) :=
  splitChunksGo s chunkSize overlap (s.length + 1) 0

/-- `ceil(a / b)` on naturals. -/
def ceilDiv (a b : Nat) : Nat := (a + b - 1) / b

/-! ### Structured-response extraction (`analyze_script` of both clients)

`json.loads` is the Python standard library's parser, external to the
repository; it is passed in as a parameter `jparse` (`none` models
`json.JSONDecodeError`).  The float threshold
`completion_tokens >= token_limit * 0.95` is written with exact integer
arithmetic (`20·tokens ≥ 19·limit`). -/

/-- Left brace written without a literal brace character. -/
def lbraceCh : Char := Char.ofNat 123

/-- Right brace written without a literal brace character. -/
def rbraceCh : Char := Char.ofNat 125

/-- The triple-backtick fence of the markdown-recovery regex. -/
def fenceMarker : List Char := "```".data

/-- Python regex `\s` character class. -/
def isPySpace (c : Char) : Bool :=
  c == ' ' || c == '\t' || c == '\n' || c == '\r' ||
    c == Char.ofNat 11 || c == Char.ofNat 12

/-- Drop everything up to and including the first occurrence of `pat`;
`none` when `pat` does not occur. -/
def dropAfterSub (pat : List Char) : List Char → Option (List Char)
  | [] => if pat.isEmpty then some [] else none
  | c :: cs =>
    if listHasPrefixCh pat (c :: cs) then some ((c :: cs).drop pat.length)
    else dropAfterSub pat cs

/-- The segment strictly before the first occurrence of `pat`; `none`
when `pat` does not occur. -/
def takeUntilSub (pat : List Char) : List Char → Option (List Char)
  | [] => if pat.isEmpty then some [] else none
  | c :: cs =>
    if listHasPrefixCh pat (c :: cs) then some []
    else (takeUntilSub pat cs).map (fun r => c :: r)

/-- `re.search(r'```(?:json)?\s*(.*?)\s*```', content, re.DOTALL)`:
the capture is the text between the first fence (after an optional
`json` tag and leading whitespace) and the next fence, with trailing
whitespace stripped. -/
def extractFenced (content : List Char) : Option (List Char) :=
  match dropAfterSub fenceMarker content with
  | none => none
  | some after =>
    let after1 := if listHasPrefixCh "json".data after then after.drop 4
      else after
    let after2 := after1.dropWhile isPySpace
    match takeUntilSub fenceMarker after2 with
    | none => none
    | some body => some ((body.reverse.dropWhile isPySpace).reverse)

/-- `re.search(r'\{.*\}', content, re.DOTALL)`: the span from the first
left brace to the last right brace, when the latter comes after the
former. -/
def extractBraces (s : List Char) : Option (List Char) :=
  match s.findIdx? (fun c => c == lbraceCh),
      (s.reverse.findIdx? (fun c => c == rbraceCh)).map
        (fun k => s.length - 1 - k) with
  | some i, some j => if i < j then some ((s.drop i).take (j + 1 - i)) else none
  | _, _ => none

/-- Outcome of the JSON-extraction step of `analyze_script`: a parsed
payload, the `"JSON response appears truncated"` `LLMError`, or the
generic `"Failed to parse JSON response"` `LLMError`. -/
inductive ParseOutcome where
  | ok : JValue → ParseOutcome
  | truncatedError
  | parseError

/-- `MoonshotClient.analyze_script` JSON handling (llm_client.py
245–262): one direct `json.loads`; on failure, report truncation when
completion tokens reached 95% of the cap, else a generic parse error.
No recovery from fenced blocks or brace spans is attempted. -/
def moonshotExtractJson (jparse : List Char → Option JValue)
    (content : List Char) (completionTokens tokenLimit : Nat) : ParseOutcome :=
  match jparse content with
  | some v => .ok v
  | none =>
    if 19 * tokenLimit ≤ 20 * completionTokens then .truncatedError
    else .parseError

/-- `ClaudeClient.analyze_script` JSON handling (llm_client.py 514–551):
direct parse, then recovery from a fenced code block, then from the
first-to-last brace span; only then the truncation check (skipped when
no usage object is present) and the generic parse error. -/
def claudeExtractJson (jparse : List Char → Option JValue)
    (content : List Char) (outputTokens : Option Nat) (tokenLimit : Nat) :
    ParseOutcome :=
  match jparse content with
  | some v => .ok v
  | none =>
    match (extractFenced content).bind jparse with
    | some v => .ok v
    | none =>
      match (extractBraces content).bind jparse with
      | some v => .ok v
      | none =>
        match outputTokens with
        | some t =>
          if 19 * tokenLimit ≤ 20 * t then .truncatedError else .parseError
        | none => .parseError

/-! ### Concrete inputs used by counterexamples and witnesses -/

/-- A payload whose recomputed total is 30 but whose raw label already
reads `Recommend`. -/
def recommendKeptPayload : List (String × JValue) :=
  [("subscores", jobj
      [("concept", jnum 10), ("character", jnum 10), ("structure", jnum 10),
       ("dialogue", jnum 0), ("market", jnum 0)]),
   ("recommendation", jstr "Recommend")]

/-- A payload whose `concept` subscore is a non-numeric string, on which
Python's `int()` raises. -/
def badSubscorePayload : List (String × JValue) :=
  [("subscores", jobj [("concept", jstr "abc")])]

/-- A payload with a dictionary-shaped evidence quote whose `page` value
is a non-numeric string, on which Python's `int()` raises. -/
def badPagePayload : List (String × JValue) :=
  [("evidence_quotes", jlist [jobj [("page", jstr "xyz")]])]

/-- A well-typed payload with a 600-character quote (to be truncated),
no `page` key, and one non-dict entry (to be dropped). -/
def quoteTruncationPayload : List (String × JValue) :=
  [("evidence_quotes", jlist
      [jobj [("quote", jstr (String.mk (List.replicate 600 'q')))],
       jnum 5])]

/-- The result `_parse_analysis_result` computes on
`quoteTruncationPayload`. -/
def quoteTruncationResult : ParsedResult :=
  { logline := jstr "", synopsis := jstr "", overall_comments := jstr ""
    strengths := jlist [], weaknesses := jlist []
    subscores := [("concept", 0, jstr ""), ("character", 0, jstr ""),
      ("structure", 0, jstr ""), ("dialogue", 0, jstr ""),
      ("market", 0, jstr "")]
    total_score := 0
    recommendation := jstr "Pass"
    evidence_quotes := [⟨jstr (String.mk (List.replicate 500 'q')), 0, jstr ""⟩] }

/-- The result `_parse_analysis_result` computes on the empty payload:
every field populated by defaulting. -/
def emptyPayloadResult : ParsedResult :=
  { logline := jstr "", synopsis := jstr "", overall_comments := jstr ""
    strengths := jlist [], weaknesses := jlist []
    subscores := [("concept", 0, jstr ""), ("character", 0, jstr ""),
      ("structure", 0, jstr ""), ("dialogue", 0, jstr ""),
      ("market", 0, jstr "")]
    total_score := 0
    recommendation := jstr "Pass"
    evidence_quotes := [] }

/-- The result `_parse_analysis_result` computes on
`recommendKeptPayload`. -/
def recommendKeptResult : ParsedResult :=
  { logline := jstr "", synopsis := jstr "", overall_comments := jstr ""
    strengths := jlist [], weaknesses := jlist []
    subscores := [("concept", 10, jstr ""), ("character", 10, jstr ""),
      ("structure", 10, jstr ""), ("dialogue", 0, jstr ""),
      ("market", 0, jstr "")]
    total_score := 30
    recommendation := jstr "Recommend"
    evidence_quotes := [] }

/-- An already-completed job record created at time 0. -/
def completedJobAt0 : Job :=
  { status := JobStatus.completed, progress := 100, errorMessage := none
    createdAt := 0, updatedAt := 0, completedAt := some 0 }

/-- A queued job record created at time 0. -/
def queuedJobAt0 : Job :=
  { status := JobStatus.queued, progress := 0, errorMessage := none
    createdAt := 0, updatedAt := 0, completedAt := none }

/-- The body of the fenced block of `fencedContent`. -/
def fencedBody : List Char := "\x7b\"a\": 1\x7d".data

/-- Provider output whose direct parse fails (prose before the JSON) but
whose fenced code block is exactly `fencedBody`. -/
def fencedContent : List Char :=
  "Here is the coverage:\n```json\n\x7b\"a\": 1\x7d\n```".data

/-- A stand-in for `json.loads`, consistent with it on the inputs
exercised: the exact fenced body parses to its object, anything else (in
particular the prose-prefixed full content) fails. -/
def stubParse (s : List Char) : Option JValue :=
  if s = fencedBody then some (jobj [("a", jnum 1)]) else none

/-! ### Auxiliary lemmas -/

theorem listContainsSub_nil_pat (s : List Char) : listContainsSub [] s = true := by
  cases s <;> simp [listContainsSub, listHasPrefixCh, List.isEmpty]

theorem listHasPrefixCh_append {p s : List Char} (t : List Char)
    (h : listHasPrefixCh p s = true) : listHasPrefixCh p (s ++ t) = true := by
  induction p generalizing s with
  | nil => simp [listHasPrefixCh]
  | cons x xs ih =>
    cases s with
    | nil => simp [listHasPrefixCh] at h
    | cons c cs =>
      simp only [listHasPrefixCh, Bool.and_eq_true] at h
      simp only [List.cons_append, listHasPrefixCh, Bool.and_eq_true]
      exact ⟨h.1, ih h.2⟩

theorem listContainsSub_append {p s : List Char} (t : List Char)
    (h : listContainsSub p s = true) : listContainsSub p (s ++ t) = true := by
  induction s with
  | nil =>
    simp only [listContainsSub, List.isEmpty_iff] at h
    subst h
    exact listContainsSub_nil_pat t
  | cons c cs ih =>
    simp only [listContainsSub, Bool.or_eq_true] at h
    rcases h with h | h
    · simp only [List.cons_append, listContainsSub, Bool.or_eq_true]
      exact Or.inl (listHasPrefixCh_append _ h)
    · simp only [List.cons_append, listContainsSub, Bool.or_eq_true]
      exact Or.inr (ih h)

/-- The stale-failure message always cites the exceeded maximum age,
whatever the rendered age digits are. -/
theorem staleMsg_cites_age (ageSecs : Int) :
    containsSub (staleMsg ageSecs) "exceeded maximum age" = true := by
  unfold staleMsg containsSub
  simp only [String.data_append, List.append_assoc]
  apply listContainsSub_append
  decide

/-! ### Chunk-splitting lemmas -/

theorem rfindNewlineGo_bounds {s : List Char} {lo hi p : Nat}
    (h : rfindNewlineGo s lo hi = some p) : lo ≤ p ∧ p < s.length := by
  unfold rfindNewlineGo at h
  have hmem : p ∈ (List.range s.length).filter
      (fun i => decide (lo ≤ i) && decide (i < hi) &&
        (s.getD i ' ' == '\n')) := by
    obtain ⟨hne, heq⟩ := List.mem_getLast?_eq_getLast (Option.mem_def.mpr h)
    rw [heq]
    exact List.getLast_mem hne
  have hcond := List.of_mem_filter hmem
  have hrange := List.mem_range.mp (List.mem_of_mem_filter hmem)
  simp only [Bool.and_eq_true, decide_eq_true_eq] at hcond
  exact ⟨hcond.1.1, hrange⟩

theorem cutPoint_lower {s : List Char} {chunkSize start : Nat}
    (hC : 100 < chunkSize) :
    start + chunkSize - 100 ≤ cutPoint s chunkSize start := by
  unfold cutPoint
  split
  · split
    · next p hr =>
      have hb := (rfindNewlineGo_bounds hr).1
      have hadj : adjIdx s.length ((start + chunkSize : Int) - 100) =
          start + chunkSize - 100 := by
        unfold adjIdx
        rw [if_neg (by omega)]
        omega
      omega
    · omega
  · omega

/-- Generic totality of the splitting loop: when every iteration from a
position inside the text advances the start index, fuel equal to the
remaining length suffices. -/
theorem splitChunksGo_total_of {s : List Char} {chunkSize overlap : Nat}
    (hadv : ∀ start, start < s.length →
      start + 1 ≤ cutPoint s chunkSize start - overlap) :
    ∀ fuel start, s.length - start ≤ fuel →
      (splitChunksGo s chunkSize overlap fuel start).isSome = true := by
  intro fuel
  induction fuel with
  | zero =>
    intro start hle
    have hns : ¬ start < s.length := by omega
    simp [splitChunksGo, hns]
  | succ n ih =>
    intro start hle
    by_cases hs : start < s.length
    · have hnext := hadv start hs
      have hrec := ih (cutPoint s chunkSize start - overlap) (by omega)
      simp only [splitChunksGo, hs, if_true]
      cases hr : splitChunksGo s chunkSize overlap n
          (cutPoint s chunkSize start - overlap) with
      | none => rw [hr] at hrec; simp at hrec
      | some rest => simp [hr]
    · simp [splitChunksGo, hs]

/-- Under `chunk_size - overlap > 100` each iteration advances. -/
theorem chunkPlan_total {s : List Char} {chunkSize overlap : Nat}
    (h : overlap + 100 < chunkSize) :
    (chunkPlan s chunkSize overlap).isSome = true := by
  apply splitChunksGo_total_of (fun start hs => ?_) (s.length + 1) 0 (by omega)
  have := @cutPoint_lower s chunkSize start (by omega)
  omega

theorem rfindNewlineGo_of_not_mem {s : List Char} (h : ¬ '\n' ∈ s)
    (lo hi : Nat) : rfindNewlineGo s lo hi = none := by
  unfold rfindNewlineGo
  have hfil : (List.range s.length).filter
      (fun i => decide (lo ≤ i) && decide (i < hi) &&
        (s.getD i ' ' == '\n')) = [] := by
    apply List.filter_eq_nil_iff.mpr
    intro i hi'
    have hlt : i < s.length := List.mem_range.mp hi'
    intro hcond
    simp only [Bool.and_eq_true, beq_iff_eq, decide_eq_true_eq] at hcond
    apply h
    rw [← hcond.2, List.getD_eq_getElem s ' ' hlt]
    exact List.getElem_mem hlt
  rw [hfil]
  rfl

theorem cutPoint_of_not_mem {s : List Char} (h : ¬ '\n' ∈ s)
    (chunkSize start : Nat) : cutPoint s chunkSize start = start + chunkSize := by
  unfold cutPoint
  split
  · rw [rfindNewlineGo_of_not_mem h]
  · rfl

theorem ceilDiv_step {m d : Nat} (hd : 0 < d) (hm : 0 < m) :
    ceilDiv m d = ceilDiv (m - d) d + 1 := by
  unfold ceilDiv
  rcases le_or_lt m d with hle | hlt
  · have h0 : m - d = 0 := by omega
    have hz : (0 + d - 1) / d = 0 := Nat.div_eq_of_lt (by omega)
    have h1 : (m + d - 1) / d = 1 :=
      Nat.div_eq_of_lt_le (by omega) (by omega)
    rw [h0, hz, h1]
  · have heq : m + d - 1 = (m - d + d - 1) + d := by omega
    rw [heq, Nat.add_div_right _ hd]

theorem ceilDiv_mono {a b d : Nat} (h : a ≤ b) : ceilDiv a d ≤ ceilDiv b d :=
  Nat.div_le_div_right (by omega)

theorem ceilDiv_add_den {a d : Nat} (hd : 0 < d) :
    ceilDiv (a + d) d = ceilDiv a d + 1 := by
  unfold ceilDiv
  have : a + d + d - 1 = (a + d - 1) + d := by omega
  rw [this, Nat.add_div_right _ hd]

/-- Chunk count of the loop on newline-free text: exactly
`⌈(len - start) / (chunk_size - overlap)⌉` chunks. -/
theorem splitChunksGo_length_of_not_mem {s : List Char} {chunkSize overlap : Nat}
    (hnl : ¬ '\n' ∈ s) (hO : overlap < chunkSize) :
    ∀ fuel start plan, splitChunksGo s chunkSize overlap fuel start = some plan →
      plan.length = ceilDiv (s.length - start) (chunkSize - overlap) := by
  intro fuel
  induction fuel with
  | zero =>
    intro start plan h
    simp only [splitChunksGo] at h
    split at h
    · exact absurd h (by simp)
    · cases h
      next hns =>
      have h0 : s.length - start = 0 := by omega
      rw [h0]
      unfold ceilDiv
      symm
      apply Nat.div_eq_of_lt
      omega
  | succ n ih =>
    intro start plan h
    simp only [splitChunksGo] at h
    by_cases hs : start < s.length
    · rw [if_pos hs, cutPoint_of_not_mem hnl] at h
      cases hr : splitChunksGo s chunkSize overlap n (start + chunkSize - overlap) with
      | none => rw [hr] at h; exact absurd h (by simp)
      | some rest =>
        rw [hr] at h
        cases h
        have hrest := ih _ _ hr
        have hstep : ceilDiv (s.length - start) (chunkSize - overlap) =
            ceilDiv (s.length - start - (chunkSize - overlap))
              (chunkSize - overlap) + 1 :=
          ceilDiv_step (by omega) (by omega)
        have harg : s.length - (start + chunkSize - overlap) =
            s.length - start - (chunkSize - overlap) := by omega
        simp only [List.length_cons]
        rw [hrest, harg, hstep]
    · rw [if_neg hs] at h
      cases h
      have h0 : s.length - start = 0 := by omega
      rw [h0]
      unfold ceilDiv
      symm
      apply Nat.div_eq_of_lt
      omega

/-- Every recorded chunk span ends inside the text (Python slicing
clamps `script_text[start:end]`). -/
theorem splitChunksGo_ends_le {s : List Char} {chunkSize overlap : Nat} :
    ∀ fuel start plan, splitChunksGo s chunkSize overlap fuel start = some plan →
      ∀ p ∈ plan, p.2 ≤ s.length := by
  intro fuel
  induction fuel with
  | zero =>
    intro start plan h
    simp only [splitChunksGo] at h
    split at h
    · exact absurd h (by simp)
    · cases h; intro p hp; simp at hp
  | succ n ih =>
    intro start plan h
    simp only [splitChunksGo] at h
    split at h
    · cases hr : splitChunksGo s chunkSize overlap n
          (cutPoint s chunkSize start - overlap) with
      | none => rw [hr] at h; exact absurd h (by simp)
      | some rest =>
        rw [hr] at h
        cases h
        intro p hp
        rcases List.mem_cons.mp hp with rfl | hp'
        · simp
        · exact ih _ _ hr p hp'
    · cases h; intro p hp; simp at hp

/-! ### Normalizer lemmas -/

theorem parse_inversion {raw : List (String × JValue)} {r : ParsedResult}
    (h : parseAnalysisResult raw = some r) :
    ∃ subs recV qs,
      validateSubscores (subscoresOf raw) scoreMapping = some subs ∧
      normalizeRecommendation (scoresSum subs) (recommendationOf raw) =
        some recV ∧
      validateQuotes (quotesOf raw) = some qs ∧
      r.subscores = subs ∧ r.total_score = scoresSum subs ∧
      r.recommendation = recV ∧ r.evidence_quotes = qs := by
  unfold parseAnalysisResult at h
  cases hsub : validateSubscores (subscoresOf raw) scoreMapping with
  | none => rw [hsub] at h; exact Option.noConfusion h
  | some subs =>
    simp only [hsub] at h
    cases hrec : normalizeRecommendation (scoresSum subs)
        (recommendationOf raw) with
    | none => rw [hrec] at h; exact Option.noConfusion h
    | some recV =>
      simp only [hrec] at h
      cases hq : validateQuotes (quotesOf raw) with
      | none => rw [hq] at h; exact Option.noConfusion h
      | some qs =>
        simp only [hq] at h
        cases h
        exact ⟨subs, recV, qs, rfl, hrec, rfl, rfl, rfl, rfl, rfl⟩

theorem validateCategory_bounds {sub : JValue} {aliases : List String}
    {sc : Int} {rat : JValue}
    (h : validateCategory sub aliases = some (sc, rat)) :
    0 ≤ sc ∧ sc ≤ 10 := by
  unfold validateCategory at h
  cases hfa : findAlias sub aliases with
  | none => rw [hfa] at h; exact Option.noConfusion h
  | some o =>
    rw [hfa] at h
    cases o with
    | none =>
      have : sc = 0 := by cases h; rfl
      omega
    | some v =>
      cases v with
      | jobj d =>
        obtain ⟨n, -, heq⟩ := Option.map_eq_some'.mp h
        have : sc = clampScore n := by cases heq; rfl
        unfold clampScore at this
        omega
      | jnull =>
        obtain ⟨n, -, heq⟩ := Option.map_eq_some'.mp h
        have : sc = clampScore n := by cases heq; rfl
        unfold clampScore at this
        omega
      | jbool b =>
        obtain ⟨n, -, heq⟩ := Option.map_eq_some'.mp h
        have : sc = clampScore n := by cases heq; rfl
        unfold clampScore at this
        omega
      | jnum n' =>
        obtain ⟨n, -, heq⟩ := Option.map_eq_some'.mp h
        have : sc = clampScore n := by cases heq; rfl
        unfold clampScore at this
        omega
      | jstr s =>
        obtain ⟨n, -, heq⟩ := Option.map_eq_some'.mp h
        have : sc = clampScore n := by cases heq; rfl
        unfold clampScore at this
        omega
      | jlist xs =>
        obtain ⟨n, -, heq⟩ := Option.map_eq_some'.mp h
        have : sc = clampScore n := by cases heq; rfl
        unfold clampScore at this
        omega

theorem validateSubscores_spec {sub : JValue} :
    ∀ tbl l, validateSubscores sub tbl = some l →
      l.map (fun t => t.1) = tbl.map (fun t => t.1) ∧
      ∀ x ∈ l, 0 ≤ x.2.1 ∧ x.2.1 ≤ 10 := by
  intro tbl
  induction tbl with
  | nil =>
    intro l h
    cases h
    exact ⟨rfl, by simp⟩
  | cons kv rest ih =>
    intro l h
    obtain ⟨k, aliases⟩ := kv
    simp only [validateSubscores] at h
    cases hvc : validateCategory sub aliases with
    | none => rw [hvc] at h; exact Option.noConfusion h
    | some p =>
      obtain ⟨sc, rat⟩ := p
      rw [hvc] at h
      cases hrest : validateSubscores sub rest with
      | none => rw [hrest] at h; exact Option.noConfusion h
      | some tail =>
        rw [hrest] at h
        cases h
        obtain ⟨ihmap, ihbd⟩ := ih tail hrest
        refine ⟨by simp [ihmap], ?_⟩
        intro x hx
        rcases List.mem_cons.mp hx with rfl | hx'
        · exact validateCategory_bounds hvc
        · exact ihbd x hx'

theorem scoresSum_bounds :
    ∀ l : List (String × Int × JValue),
      (∀ x ∈ l, 0 ≤ x.2.1 ∧ x.2.1 ≤ 10) →
      0 ≤ scoresSum l ∧ scoresSum l ≤ 10 * (l.length : Int) := by
  intro l
  induction l with
  | nil => intro _; simp [scoresSum]
  | cons x xs ih =>
    intro hb
    have hx := hb x (List.mem_cons_self x xs)
    have ih' := ih (fun y hy => hb y (List.mem_cons_of_mem x hy))
    simp only [scoresSum, List.map_cons, List.sum_cons, List.length_cons] at *
    push_cast at *
    omega

theorem sliceOpt_vLen {v w : JValue} {n : Nat} (h : sliceOpt v n = some w) :
    vLen w ≤ n := by
  unfold sliceOpt at h
  split at h
  · cases h
    simp [vLen]
  · cases h
    simp [vLen]
  · exact Option.noConfusion h

theorem validateQuote_kept_bounds {q : JValue} {e : EvidenceQuote}
    (h : validateQuote q = some (some e)) :
    vLen e.quote ≤ 500 ∧ vLen e.context ≤ 200 := by
  unfold validateQuote at h
  split at h
  · next d =>
    cases hq : sliceOpt ((lookupJ d "quote").getD (jstr "")) 500 with
    | none => rw [hq] at h; exact Option.noConfusion h
    | some qv =>
      rw [hq] at h
      cases hp : toIntOpt ((lookupJ d "page").getD (jnum 0)) with
      | none => rw [hp] at h; exact Option.noConfusion h
      | some pg =>
        rw [hp] at h
        cases hc : sliceOpt ((lookupJ d "context").getD (jstr "")) 200 with
        | none => rw [hc] at h; exact Option.noConfusion h
        | some cv =>
          rw [hc] at h
          cases h
          exact ⟨sliceOpt_vLen hq, sliceOpt_vLen hc⟩
  · simp at h

theorem validateQuote_page_default {d : List (String × JValue)}
    {e : EvidenceQuote} (hpage : lookupJ d "page" = none)
    (h : validateQuote (jobj d) = some (some e)) : e.page = 0 := by
  simp only [validateQuote] at h
  rw [hpage] at h
  cases hq : sliceOpt ((lookupJ d "quote").getD (jstr "")) 500 with
  | none => rw [hq] at h; exact Option.noConfusion h
  | some qv =>
    rw [hq] at h
    have hzero : toIntOpt (Option.getD none (jnum 0)) = some 0 := rfl
    rw [hzero] at h
    cases hc : sliceOpt ((lookupJ d "context").getD (jstr "")) 200 with
    | none => rw [hc] at h; exact Option.noConfusion h
    | some cv =>
      rw [hc] at h
      cases h
      rfl

theorem validateQuote_obj_not_skipped (d : List (String × JValue)) :
    validateQuote (jobj d) ≠ some none := by
  intro hcon
  simp only [validateQuote] at hcon
  split at hcon
  · exact Option.noConfusion hcon
  · split at hcon
    · exact Option.noConfusion hcon
    · split at hcon
      · exact Option.noConfusion hcon
      · exact Option.noConfusion (Option.some.inj hcon)

theorem validateQuotes_spec :
    ∀ qs es, validateQuotes qs = some es →
      es.length = qs.countP isObjJ ∧
      ∀ e ∈ es, vLen e.quote ≤ 500 ∧ vLen e.context ≤ 200 := by
  intro qs
  induction qs with
  | nil =>
    intro es h
    cases h
    exact ⟨rfl, by simp⟩
  | cons q rest ih =>
    intro es h
    simp only [validateQuotes] at h
    cases hv : validateQuote q with
    | none => rw [hv] at h; exact Option.noConfusion h
    | some o =>
      rw [hv] at h
      cases o with
      | none =>
        obtain ⟨ihl, ihb⟩ := ih es h
        have hobj : isObjJ q = false := by
          cases q with
          | jobj d => exact absurd hv (validateQuote_obj_not_skipped d)
          | jnull => rfl
          | jbool b => rfl
          | jnum n => rfl
          | jstr s => rfl
          | jlist xs => rfl
        refine ⟨?_, ihb⟩
        rw [List.countP_cons, hobj]
        simpa using ihl
      | some e =>
        cases hrest : validateQuotes rest with
        | none => rw [hrest] at h; exact Option.noConfusion h
        | some tail =>
          rw [hrest] at h
          cases h
          obtain ⟨ihl, ihb⟩ := ih tail hrest
          have hobj : isObjJ q = true := by
            cases q with
            | jobj d => rfl
            | jnull => simp [validateQuote] at hv
            | jbool b => simp [validateQuote] at hv
            | jnum n => simp [validateQuote] at hv
            | jstr s => simp [validateQuote] at hv
            | jlist xs => simp [validateQuote] at hv
          refine ⟨?_, ?_⟩
          · rw [List.countP_cons, hobj]
            simp [ihl]
          · intro e' he'
            rcases List.mem_cons.mp he' with rfl | he''
            · exact validateQuote_kept_bounds hv
            · exact ihb e' he''

/-! ### Claim theorems -/

/-- C10: for every input text, the chunk-splitting loop of
`analyze_with_chunking` (both provider clients run the identical loop)
terminates with a finite chunk plan whenever
`chunk_size - overlap > 100`: the newline search spans at most 100
characters before the nominal cut, so each iteration advances the start
index by at least `chunk_size - overlap - 100 > 0`. -/
theorem C10_chunking_terminates (s : List Char) (chunkSize overlap : Nat)
    (h : overlap + 100 < chunkSize) :
    (chunkPlan s chunkSize overlap).isSome = true :=
  chunkPlan_total h

/-- Witness for C10 at the default-shaped parameters scaled down. -/
theorem C10_witness :
    (chunkPlan "hello world, a short script".data 150 10).isSome = true :=
  C10_chunking_terminates _ 150 10 (by decide)

/-- C8 counterexample: splitting 10 characters (no newlines) with
`chunk_size = 3`, `overlap = 2` (so `overlap < chunk_size`) yields 10
chunks, while `ceil((L - O) / (C - O)) = 8`; the count is off by 2, so
it is not within ±1 of the claimed formula. -/
theorem C8_counterexample :
    (chunkPlan "aaaaaaaaaa".data 3 2).map List.length = some 10 ∧
      ceilDiv ("aaaaaaaaaa".data.length - 2) (3 - 2) + 1 < 10 := by
  constructor
  · rfl
  · decide

/-- C8 amended: on newline-free text (so no cut is moved by the newline
search) and with `overlap < chunk_size` and `chunk_size ≥ 2·overlap`
(satisfied by the defaults 60000/5000), the loop terminates, produces
exactly `ceil(L / (C - O))` chunks — which is within ±1 of the claimed
`ceil((L - O) / (C - O))` — and every chunk's end index is at most `L`.
(The end-index bound needs no hypotheses; the count formula fails both
for `C < 2·O`, see the counterexample, and on texts whose newlines
displace the cut points.) -/
theorem C8_chunk_count_bound (s : List Char) (chunkSize overlap : Nat)
    (hnl : ¬ '\n' ∈ s) (hO : overlap < chunkSize)
    (h2 : 2 * overlap ≤ chunkSize) :
    ∃ plan, chunkPlan s chunkSize overlap = some plan ∧
      plan.length = ceilDiv s.length (chunkSize - overlap) ∧
      ceilDiv (s.length - overlap) (chunkSize - overlap) ≤ plan.length ∧
      plan.length ≤ ceilDiv (s.length - overlap) (chunkSize - overlap) + 1 ∧
      ∀ p ∈ plan, p.2 ≤ s.length := by
  have htot : (chunkPlan s chunkSize overlap).isSome = true := by
    apply splitChunksGo_total_of (fun start hs => ?_) (s.length + 1) 0 (by omega)
    rw [cutPoint_of_not_mem hnl]
    omega
  obtain ⟨plan, hplan⟩ := Option.isSome_iff_exists.mp htot
  refine ⟨plan, hplan, ?_, ?_, ?_, splitChunksGo_ends_le _ _ _ hplan⟩
  · have := splitChunksGo_length_of_not_mem hnl hO _ _ _ hplan
    simpa using this
  · have hlen := splitChunksGo_length_of_not_mem hnl hO _ _ _ hplan
    simp only [Nat.sub_zero] at hlen
    rw [hlen]
    exact ceilDiv_mono (by omega)
  · have hlen := splitChunksGo_length_of_not_mem hnl hO _ _ _ hplan
    simp only [Nat.sub_zero] at hlen
    rw [hlen]
    have hle : s.length ≤ (s.length - overlap) + (chunkSize - overlap) := by
      omega
    calc ceilDiv s.length (chunkSize - overlap)
        ≤ ceilDiv ((s.length - overlap) + (chunkSize - overlap))
            (chunkSize - overlap) := ceilDiv_mono hle
      _ = ceilDiv (s.length - overlap) (chunkSize - overlap) + 1 :=
          ceilDiv_add_den (by omega)

/-- Witness for C8 on a newline-free 10-character text with the default
ratio `chunk_size = 2·overlap`. -/
theorem C8_witness :
    ∃ plan, chunkPlan "aaaaaaaaaa".data 8 4 = some plan ∧
      plan.length = ceilDiv "aaaaaaaaaa".data.length (8 - 4) ∧
      ceilDiv ("aaaaaaaaaa".data.length - 4) (8 - 4) ≤ plan.length ∧
      plan.length ≤ ceilDiv ("aaaaaaaaaa".data.length - 4) (8 - 4) + 1 ∧
      ∀ p ∈ plan, p.2 ≤ "aaaaaaaaaa".data.length :=
  C8_chunk_count_bound _ 8 4 (by decide) (by decide) (by decide)

/-- C1 counterexample: a job already Completed, created at time 0 and
picked up 601 seconds later, is re-marked Failed by the background unit
— the stale-age check of `_run_analysis_job` runs before its
terminal-state check and `_do_mark_failed` checks no terminal state, so
terminal status is not immutable regardless of the job's age. -/
theorem C1_counterexample :
    (runAnalysisJob 601 (some completedJobAt0) AnalysisOutcome.success).map
        Job.status = some JobStatus.failed ∧
      completedJobAt0.status = JobStatus.completed := by
  constructor
  · rfl
  · rfl

/-- C1 amended: starting the background unit for a job already in a
terminal state (Completed or Failed) is an idempotent no-op — it exits
without changing status, progress or error message — provided the job's
age at pickup is within the 10-minute stale threshold; a terminal job
older than the threshold is instead re-marked Failed by the stale check,
which precedes the terminal-state check. -/
theorem C1_terminal_noop_within_stale_threshold (job : Job) (now : Int)
    (outcome : AnalysisOutcome)
    (hterm : job.status = JobStatus.completed ∨ job.status = JobStatus.failed)
    (hage : now - job.createdAt ≤ staleThresholdSecs) :
    runAnalysisJob now (some job) outcome = some job := by
  simp only [runAnalysisJob]
  rw [if_neg (by omega), if_pos hterm]

/-- Witness for C1 at a Completed job picked up at its creation time. -/
theorem C1_witness :
    runAnalysisJob 0 (some completedJobAt0) AnalysisOutcome.success =
      some completedJobAt0 :=
  C1_terminal_noop_within_stale_threshold completedJobAt0 0
    AnalysisOutcome.success (Or.inl rfl) (by decide)

/-- C7: a job whose age at pickup exceeds the 10-minute stale threshold
is marked Failed with a message citing the exceeded maximum age, and the
background unit exits without the analysis outcome mattering — no
provider call is attempted (the result is independent of the outcome). -/
theorem C7_stale_job_marked_failed (job : Job) (now : Int)
    (outcome : AnalysisOutcome)
    (hage : staleThresholdSecs < now - job.createdAt) :
    runAnalysisJob now (some job) outcome =
        some (doMarkFailed (staleMsg (now - job.createdAt)) now job) ∧
      (doMarkFailed (staleMsg (now - job.createdAt)) now job).status =
        JobStatus.failed ∧
      (doMarkFailed (staleMsg (now - job.createdAt)) now job).errorMessage =
        some (staleMsg (now - job.createdAt)) ∧
      containsSub (staleMsg (now - job.createdAt)) "exceeded maximum age" =
        true ∧
      ∀ outcome', runAnalysisJob now (some job) outcome' =
        runAnalysisJob now (some job) outcome := by
  refine ⟨?_, rfl, rfl, staleMsg_cites_age _, ?_⟩
  · simp only [runAnalysisJob]
    rw [if_pos (by omega)]
  · intro outcome'
    simp only [runAnalysisJob]
    rw [if_pos (by omega), if_pos (by omega)]

/-- Witness for C7 at a queued job picked up 11 minutes after creation. -/
theorem C7_witness :
    runAnalysisJob 660 (some queuedJobAt0) AnalysisOutcome.success =
        some (doMarkFailed (staleMsg (660 - queuedJobAt0.createdAt)) 660
          queuedJobAt0) ∧
      (doMarkFailed (staleMsg (660 - queuedJobAt0.createdAt)) 660
        queuedJobAt0).status = JobStatus.failed ∧
      (doMarkFailed (staleMsg (660 - queuedJobAt0.createdAt)) 660
        queuedJobAt0).errorMessage =
        some (staleMsg (660 - queuedJobAt0.createdAt)) ∧
      containsSub (staleMsg (660 - queuedJobAt0.createdAt))
        "exceeded maximum age" = true ∧
      ∀ outcome', runAnalysisJob 660 (some queuedJobAt0) outcome' =
        runAnalysisJob 660 (some queuedJobAt0) AnalysisOutcome.success :=
  C7_stale_job_marked_failed queuedJobAt0 660 AnalysisOutcome.success
    (by decide)

/-- C4 counterexample: when the primary's moderation error and the
fallback's error both occur, the surfaced message quotes only the
fallback's error text — the primary's moderation cause
(`"primary moderation cause zq"`) does not appear in it, so the error
does not cite both causes. -/
theorem C4_counterexample :
    analyzeScriptFailover (α := JValue)
        (CallResult.moderation "primary moderation cause zq")
        (CallResult.err "claude timeout zz") =
      Except.error
        "Both Moonshot and Claude failed. Claude error: claude timeout zz" ∧
      containsSub
        "Both Moonshot and Claude failed. Claude error: claude timeout zz"
        "primary moderation cause zq" = false := by
  constructor
  · rfl
  · decide

/-- C4 amended: a content-moderation error from the Primary (and only
that error class) triggers the equivalent Fallback call; any other
Primary error aborts immediately with no Fallback attempt (the result
does not depend on the fallback outcome); when the Fallback also fails,
the single resulting error names both providers and quotes the
Fallback's error — but omits the Primary's moderation error text. -/
theorem C4_failover_protocol {α : Type} (v : α) (fb : CallResult α)
    (m m2 : String) :
    analyzeScriptFailover (CallResult.ok v) fb =
        Except.ok (v, "moonshot-v1-128k") ∧
      analyzeScriptFailover (CallResult.moderation m) (CallResult.ok v) =
        Except.ok (v, "claude-sonnet-4-5") ∧
      analyzeScriptFailover (CallResult.err m) fb =
        Except.error ("Moonshot analysis failed: " ++ m) ∧
      analyzeScriptFailover (α := α) (CallResult.moderation m)
          (CallResult.err m2) =
        Except.error ("Both Moonshot and Claude failed. Claude error: " ++ m2) ∧
      analyzeScriptFailover (α := α) (CallResult.moderation m)
          (CallResult.moderation m2) =
        Except.error ("Both Moonshot and Claude failed. Claude error: " ++ m2) :=
  ⟨rfl, rfl, rfl, rfl, rfl⟩

/-- C9 counterexample: on content whose direct parse fails but whose
fenced code block parses, the Primary (Moonshot) client reports a
generic parse error without attempting any recovery, while the Fallback
(Claude) client recovers the payload — so the recovery chain is not
implemented by both provider clients. -/
theorem C9_counterexample :
    moonshotExtractJson stubParse fencedContent 0 8000 =
        ParseOutcome.parseError ∧
      claudeExtractJson stubParse fencedContent (some 0) 8000 =
        ParseOutcome.ok (jobj [("a", jnum 1)]) := by
  constructor
  · rfl
  · rfl

/-- C9 amended: the Fallback (Claude) client attempts, in order, direct
parsing, recovery from a fenced code block, then recovery from the first
top-level brace-delimited span, and only then reports "likely truncated"
(when a usage count is available and completion tokens reached 95% of
the cap) or a generic parse error; the Primary (Moonshot) client
performs the direct parse only and reports truncated/parse error
immediately, with no recovery attempt. -/
theorem C9_parse_recovery (jparse : List Char → Option JValue)
    (content : List Char) (completionTokens tokenLimit : Nat)
    (usage : Option Nat) (v : JValue) :
    (jparse content = some v →
      moonshotExtractJson jparse content completionTokens tokenLimit =
          ParseOutcome.ok v ∧
        claudeExtractJson jparse content usage tokenLimit =
          ParseOutcome.ok v) ∧
    (jparse content = none →
      moonshotExtractJson jparse content completionTokens tokenLimit =
        (if 19 * tokenLimit ≤ 20 * completionTokens then
          ParseOutcome.truncatedError else ParseOutcome.parseError)) ∧
    (jparse content = none →
      (extractFenced content).bind jparse = some v →
      claudeExtractJson jparse content usage tokenLimit =
        ParseOutcome.ok v) ∧
    (jparse content = none →
      (extractFenced content).bind jparse = none →
      (extractBraces content).bind jparse = some v →
      claudeExtractJson jparse content usage tokenLimit =
        ParseOutcome.ok v) ∧
    (jparse content = none →
      (extractFenced content).bind jparse = none →
      (extractBraces content).bind jparse = none →
      claudeExtractJson jparse content usage tokenLimit =
        (match usage with
         | some t => if 19 * tokenLimit ≤ 20 * t then
             ParseOutcome.truncatedError else ParseOutcome.parseError
         | none => ParseOutcome.parseError)) := by
  refine ⟨?_, ?_, ?_, ?_, ?_⟩
  · intro h
    unfold moonshotExtractJson claudeExtractJson
    rw [h]
    exact ⟨rfl, rfl⟩
  · intro h
    unfold moonshotExtractJson
    rw [h]
  · intro h hf
    unfold claudeExtractJson
    rw [h, hf]
  · intro h hf hb
    unfold claudeExtractJson
    rw [h, hf, hb]
  · intro h hf hb
    unfold claudeExtractJson
    rw [h, hf, hb]

/-- Witness for C9: the Claude recovery succeeds on `fencedContent`. -/
theorem C9_witness :
    claudeExtractJson stubParse fencedContent (some 0) 8000 =
      ParseOutcome.ok (jobj [("a", jnum 1)]) :=
  (C9_parse_recovery stubParse fencedContent 0 8000 (some 0)
      (jobj [("a", jnum 1)])).2.2.1 (by rfl) (by rfl)

/-- C3: whenever `_parse_analysis_result` returns, the normalized
`total_score` is the sum of the five validated category scores (so any
total proposed by the raw payload is discarded), the categories are
exactly {concept, character, structure, dialogue, market} in order, each
score is clamped to `[0,10]`, and hence `total_score ∈ [0,50]`. -/
theorem C3_total_score_recomputed (raw : List (String × JValue))
    (r : ParsedResult) (h : parseAnalysisResult raw = some r) :
    r.total_score = scoresSum r.subscores ∧
      r.subscores.map (fun t => t.1) =
        ["concept", "character", "structure", "dialogue", "market"] ∧
      (∀ x ∈ r.subscores, 0 ≤ x.2.1 ∧ x.2.1 ≤ 10) ∧
      0 ≤ r.total_score ∧ r.total_score ≤ 50 := by
  obtain ⟨subs, recV, qs, hsub, hrec, hq, hsubs, htot, hrecr, hqr⟩ :=
    parse_inversion h
  obtain ⟨hmap, hbd⟩ := validateSubscores_spec _ _ hsub
  have hlen : subs.length = 5 := by
    have := congrArg List.length hmap
    simpa using this
  obtain ⟨h0, h10⟩ := scoresSum_bounds subs hbd
  rw [hlen] at h10
  rw [hsubs, htot]
  refine ⟨rfl, hmap.trans rfl, hbd, h0, by omega⟩

/-- Witness for C3 on the empty payload. -/
theorem C3_witness :
    emptyPayloadResult.total_score = scoresSum emptyPayloadResult.subscores :=
  (C3_total_score_recomputed [] emptyPayloadResult (by rfl)).1

/-- C2 counterexample: a payload with recomputed total 30 (inside the
claimed Consider band `25 ≤ total ≤ 37`) whose raw label is
`"Recommend"` keeps that label — the conflicting label is not
overridden, so the recommendation is not determined solely by the
recomputed total. -/
theorem C2_counterexample :
    (parseAnalysisResult recommendKeptPayload).map
        (fun r => (r.total_score, r.recommendation)) =
      some ((30 : Int), jstr "Recommend") ∧
      jstr "Recommend" ≠ jstr "Consider" := by
  constructor
  · rfl
  · intro hcontra
    injection hcontra with hs
    exact absurd hs (by decide)

/-- C2 amended: after normalization the recommendation follows the
thresholds on the recomputed total except that an already-acceptable raw
label is preserved verbatim: for `total ≥ 38` the canonical label
`Recommend` is installed unless the uppercased raw label contains
`RECOMMEND`; for `25 ≤ total ≤ 37` the label `Consider` is installed
unless the raw label contains `CONSIDER` or `RECOMMEND`; for
`total < 25` the label `Pass` is installed unless the raw label contains
`PASS`; in each excepted case the raw label is kept unchanged. -/
theorem C2_recommendation_threshold_with_label_preservation
    (raw : List (String × JValue)) (r : ParsedResult) (u : String)
    (h : parseAnalysisResult raw = some r)
    (hu : upperOpt (recommendationOf raw) = some u) :
    ((38 ≤ r.total_score ∧ containsSub u "RECOMMEND" = false) →
      r.recommendation = jstr "Recommend") ∧
    ((38 ≤ r.total_score ∧ containsSub u "RECOMMEND" = true) →
      r.recommendation = recommendationOf raw) ∧
    ((25 ≤ r.total_score ∧ r.total_score ≤ 37 ∧
        containsSub u "CONSIDER" = false ∧
        containsSub u "RECOMMEND" = false) →
      r.recommendation = jstr "Consider") ∧
    ((25 ≤ r.total_score ∧ r.total_score ≤ 37 ∧
        (containsSub u "CONSIDER" = true ∨
          containsSub u "RECOMMEND" = true)) →
      r.recommendation = recommendationOf raw) ∧
    ((r.total_score < 25 ∧ containsSub u "PASS" = false) →
      r.recommendation = jstr "Pass") ∧
    ((r.total_score < 25 ∧ containsSub u "PASS" = true) →
      r.recommendation = recommendationOf raw) := by
  obtain ⟨subs, recV, qs, hsub, hrec, hq, hsubs, htot, hrecr, hqr⟩ :=
    parse_inversion h
  unfold normalizeRecommendation at hrec
  simp only [hu] at hrec
  rw [htot, hrecr]
  by_cases hc1 : 38 ≤ scoresSum subs ∧ containsSub u "RECOMMEND" = false
  · rw [if_pos hc1] at hrec
    cases hrec
    refine ⟨fun _ => rfl, ?_, ?_, ?_, ?_, ?_⟩
    · rintro ⟨-, htr⟩
      rw [hc1.2] at htr
      exact absurd htr (by decide)
    · rintro ⟨-, h37, -, -⟩
      exact absurd hc1.1 (by omega)
    · rintro ⟨-, h37, -⟩
      exact absurd hc1.1 (by omega)
    · rintro ⟨h25, -⟩
      rcases hc1 with ⟨h38, -⟩
      omega
    · rintro ⟨h25, -⟩
      rcases hc1 with ⟨h38, -⟩
      omega
  · rw [if_neg hc1] at hrec
    by_cases hc2 : 25 ≤ scoresSum subs ∧ containsSub u "CONSIDER" = false ∧
        containsSub u "RECOMMEND" = false
    · rw [if_pos hc2] at hrec
      cases hrec
      refine ⟨?_, ?_, fun _ => rfl, ?_, ?_, ?_⟩
      · rintro ⟨h38, hR⟩
        exact absurd ⟨h38, hR⟩ hc1
      · rintro ⟨-, htr⟩
        rw [hc2.2.2] at htr
        exact absurd htr (by decide)
      · rintro ⟨-, -, hd⟩
        rcases hd with hC | hR
        · rw [hc2.2.1] at hC
          exact absurd hC (by decide)
        · rw [hc2.2.2] at hR
          exact absurd hR (by decide)
      · rintro ⟨h24, -⟩
        rcases hc2 with ⟨h25, -⟩
        omega
      · rintro ⟨h24, -⟩
        rcases hc2 with ⟨h25, -⟩
        omega
    · rw [if_neg hc2] at hrec
      by_cases hc3 : scoresSum subs < 25 ∧ containsSub u "PASS" = false
      · rw [if_pos hc3] at hrec
        cases hrec
        refine ⟨?_, ?_, ?_, ?_, fun _ => rfl, ?_⟩
        · rintro ⟨h38, hR⟩
          exact absurd ⟨h38, hR⟩ hc1
        · rintro ⟨h38, -⟩
          rcases hc3 with ⟨h24, -⟩
          omega
        · rintro ⟨h25, -, -, -⟩
          rcases hc3 with ⟨h24, -⟩
          omega
        · rintro ⟨h25, -, -⟩
          rcases hc3 with ⟨h24, -⟩
          omega
        · rintro ⟨-, htr⟩
          rw [hc3.2] at htr
          exact absurd htr (by decide)
      · rw [if_neg hc3] at hrec
        cases hrec
        refine ⟨?_, fun _ => rfl, ?_, fun _ => rfl, ?_, fun _ => rfl⟩
        · rintro ⟨h38, hR⟩
          exact absurd ⟨h38, hR⟩ hc1
        · rintro ⟨h25, h37, hC, hR⟩
          exact absurd ⟨h25, hC, hR⟩ hc2
        · rintro ⟨h24, hP⟩
          exact absurd ⟨h24, hP⟩ hc3

/-- Witness for C2: total 30 with a raw `Recommend` label is kept. -/
theorem C2_witness :
    recommendKeptResult.recommendation =
      recommendationOf recommendKeptPayload :=
  (C2_recommendation_threshold_with_label_preservation recommendKeptPayload
      recommendKeptResult "RECOMMEND" (by rfl) (by rfl)).2.2.2.1
    ⟨by decide, by decide, Or.inr (by decide)⟩

/-- C5 counterexample: a payload whose present `concept` subscore is the
non-numeric string `"abc"` makes validation raise (`int("abc")` throws,
escalated to `AnalysisError`), so validation does not always return a
completed result for every raw payload. -/
theorem C5_counterexample : parseAnalysisResult badSubscorePayload = none :=
  rfl

/-- C5 amended: response validation never fails because of missing
fields — on any payload without `subscores`, `recommendation` and
`evidence_quotes` keys it returns a complete result with every required
field populated by defaulting (missing strings → `""`, missing lists →
`[]`, all five subscores 0, recomputed total 0, recommendation `Pass`,
no quotes); it can, however, raise when a present field value is
ill-typed (see the counterexample). -/
theorem C5_missing_fields_defaulted (raw : List (String × JValue))
    (h1 : lookupJ raw "subscores" = none)
    (h2 : lookupJ raw "recommendation" = none)
    (h3 : lookupJ raw "evidence_quotes" = none) :
    parseAnalysisResult raw = some
      { logline := defaultedField raw "logline" (jstr "")
        synopsis := defaultedField raw "synopsis" (jstr "")
        overall_comments := defaultedField raw "overall_comments" (jstr "")
        strengths := defaultedField raw "strengths" (jlist [])
        weaknesses := defaultedField raw "weaknesses" (jlist [])
        subscores := [("concept", 0, jstr ""), ("character", 0, jstr ""),
          ("structure", 0, jstr ""), ("dialogue", 0, jstr ""),
          ("market", 0, jstr "")]
        total_score := 0
        recommendation := jstr "Pass"
        evidence_quotes := [] } := by
  have hsub : subscoresOf raw = jobj [] := by
    unfold subscoresOf defaultedField
    rw [h1]
    rfl
  have hrecv : recommendationOf raw = jstr "" := by
    unfold recommendationOf defaultedField
    rw [h2]
    rfl
  have hqs : quotesOf raw = [] := by
    unfold quotesOf
    rw [h3]
  unfold parseAnalysisResult
  rw [hsub, hrecv, hqs]
  rfl

/-- Witness for C5 on the empty payload. -/
theorem C5_witness : parseAnalysisResult [] = some emptyPayloadResult :=
  C5_missing_fields_defaulted [] rfl rfl rfl

/-- C6 counterexample: a dictionary-shaped evidence quote whose `page`
value is the non-numeric string `"xyz"` makes `int()` raise, failing the
whole analysis — an invalid page is not defaulted to 0 and the malformed
entry is not dropped silently. -/
theorem C6_counterexample : parseAnalysisResult badPagePayload = none :=
  rfl

/-- C6 amended: evidence-quote normalization keeps exactly the
dictionary-shaped entries (non-dict entries are dropped silently); each
kept entry's quote is truncated to at most 500 characters and its
context to at most 200; the page is coerced with `int()` and defaults to
0 only when the `page` key is missing — a present but uncoercible page
value (like an unsliceable quote or context) raises an error that fails
the analysis instead of being defaulted. -/
theorem C6_quote_truncation_and_page_default (raw : List (String × JValue))
    (r : ParsedResult) (h : parseAnalysisResult raw = some r) :
    (∀ e ∈ r.evidence_quotes, vLen e.quote ≤ 500 ∧ vLen e.context ≤ 200) ∧
      r.evidence_quotes.length = (quotesOf raw).countP isObjJ ∧
      ∀ d e, lookupJ d "page" = none →
        validateQuote (jobj d) = some (some e) → e.page = 0 := by
  obtain ⟨subs, recV, qs, hsub, hrec, hq, hsubs, htot, hrecr, hqr⟩ :=
    parse_inversion h
  obtain ⟨hlen, hbd⟩ := validateQuotes_spec _ _ hq
  rw [hqr]
  exact ⟨hbd, hlen, fun d e hp hv => validateQuote_page_default hp hv⟩

set_option maxRecDepth 8000 in
/-- Witness for C6: a 600-character quote is kept truncated and the
non-dict entry dropped (1 kept quote from 1 dict among 2 entries). -/
theorem C6_witness :
    quoteTruncationResult.evidence_quotes.length =
      (quotesOf quoteTruncationPayload).countP isObjJ :=
  (C6_quote_truncation_and_page_default quoteTruncationPayload
      quoteTruncationResult (by rfl)).2.1

end CoverageIQ
